import Mathlib

/-!
Verification of the ClickTester repository (Go): a shallow embedding of the
task execution engine (internal/runner/runner.go), the stress engine
(internal/runner/stress.go) and the pure text helpers of the ClickHouse
client (internal/chclient), together with proofs of the behavioural claims
about them.

Modelling conventions:
- Go machine integers are modelled as Nat (with an explicit mod 2 ^ 64 where
  the source relies on uint64 wrap-around, and an explicit int64 range check
  where the source parses via Sscanf).
- float64 values that the engines merely store, compare and index (latencies,
  durations) are modelled as rationals; no float rounding is relevant to any
  claim.
- Go errors are an inductive type carrying the wrapping chain, so that the
  errors.Is unwrapping loop can be embedded faithfully.
- A context value is not modelled: a context timeout or cancellation is only
  observable in this code as an error returned by a client call, so theorems
  quantify over client behaviour instead.
- Concurrency: the worker pools are modelled by making the completion order
  an explicit parameter (a permutation of the task indices) and the shared
  stress counter an explicit state machine whose atomic increments are
  serialised; theorems quantify over every serialisation.
-/

namespace ClickTester

/-! ## Go errors and the errors.Is unwrapping chain -/

/-- Model of a Go error value: the two context sentinel errors, a plain leaf
error created with a message, and an error wrapping another (fmt.Errorf with
a percent-w verb). -/
inductive GoError where
  | canceled : GoError
  | deadlineExceeded : GoError
  | leaf (msg : String) : GoError
  | wrapped (pre : String) (inner : GoError) : GoError
deriving DecidableEq, Repr

/-- The Error() string of a Go error, as the runner records it. -/
def errMessage : GoError → String
  | .canceled => "context canceled"
  | .deadlineExceeded => "context deadline exceeded"
  | .leaf msg => msg
  | .wrapped pre inner => pre ++ errMessage inner

/-- Pointer identity of a Go error value against a target sentinel, as used
by the errors.Is comparison step. Only the two context sentinels are unique
globals that can compare equal; a leaf or wrapping error is a fresh
allocation and never identical to a sentinel. -/
def isSameErr : GoError → GoError → Bool
  | .canceled, .canceled => true
  | .deadlineExceeded, .deadlineExceeded => true
  | _, _ => false

/-- errors.Is: walk the unwrapping chain, comparing each error against the
target. -/
def errorsIs : GoError → GoError → Bool
  | e@(.wrapped _ inner), target => isSameErr e target || errorsIs inner target
  | e, target => isSameErr e target

/-- isContextCanceled from internal/runner/stress.go: the error is or wraps
context.Canceled or context.DeadlineExceeded. -/
def isContextCanceled (e : GoError) : Bool :=
  errorsIs e .canceled || errorsIs e .deadlineExceeded

/-- Specification-side predicate, written from the words of the spec: the
error is, or wraps, a cancellation or deadline-expiry signal. -/
inductive WrapsCancellation : GoError → Prop
  | canceled : WrapsCancellation .canceled
  | deadline : WrapsCancellation .deadlineExceeded
  | wrap (pre : String) {inner : GoError} :
      WrapsCancellation inner → WrapsCancellation (.wrapped pre inner)

/-! ## chclient pure text helpers (internal/chclient, newest revision in
src/unnamed/part_001): the granule regex scan and the projection marker. -/

/-- The character class of the regexp escape for whitespace in RE2:
tab, newline, form feed, carriage return and space. -/
def isSpaceGo (c : Char) : Bool :=
  c = ' ' || c = '\t' || c = '\n' || c = '\x0c' || c = '\r'

/-- Numeric value of a run of decimal digit characters (what Sscanf with the
percent-d verb computes on a digit string, before its int64 range check). -/
def natOfDigits (ds : List Char) : Nat :=
  ds.foldl (fun n c => n * 10 + (c.toNat - 48)) 0

/-- Strip an expected literal from the front of a character list; none when
the list does not start with the literal. -/
def dropLit : List Char → List Char → Option (List Char)
  | [], s => some s
  | _ :: _, [] => none
  | l :: ls, c :: cs => if c = l then dropLit ls cs else none

/-- One anchored attempt of the pattern Granules: whitespace digits slash
digits at the head of the input, as the compiled GranulesRegex matches it
(the two digit runs are the capture groups). Returns the two captured
numbers and the rest of the input after the match. -/
def granulesMatch (cs : List Char) : Option (Nat × Nat × List Char) :=
  match dropLit "Granules:".data cs with
  | none => none
  | some rest0 =>
    let rest1 := rest0.dropWhile isSpaceGo
    let d1 := rest1.takeWhile Char.isDigit
    let rest2 := rest1.dropWhile Char.isDigit
    if d1.isEmpty then none
    else
      match rest2 with
      | '/' :: rest3 =>
        let d2 := rest3.takeWhile Char.isDigit
        let rest4 := rest3.dropWhile Char.isDigit
        if d2.isEmpty then none
        else some (natOfDigits d1, natOfDigits d2, rest4)
      | _ => none

theorem dropLit_length {lit s r : List Char} (h : dropLit lit s = some r) :
    r.length + lit.length = s.length := by
  induction lit generalizing s with
  | nil => simp [dropLit] at h; simp [h]
  | cons l ls ih =>
    match s with
    | [] => simp [dropLit] at h
    | c :: cs =>
      by_cases hc : c = l
      · simp [dropLit, hc] at h
        have := ih h
        simp [List.length_cons]
        omega
      · simp [dropLit, hc] at h

theorem length_dropWhile_le (p : Char → Bool) (l : List Char) :
    (l.dropWhile p).length ≤ l.length := by
  induction l with
  | nil => simp
  | cons a as ih =>
    by_cases h : p a
    · simpa [List.dropWhile, h] using Nat.le_succ_of_le ih
    · simp [List.dropWhile, h]

theorem granulesMatch_length {cs : List Char} {x y : Nat} {rest : List Char}
    (h : granulesMatch cs = some (x, y, rest)) : rest.length < cs.length := by
  unfold granulesMatch at h
  split at h
  · exact absurd h (by simp)
  next rest0 hd =>
    have h9 : rest0.length + 9 = cs.length := by
      have := dropLit_length hd
      simpa using this
    simp only at h
    split at h
    · exact absurd h (by simp)
    · split at h
      next rest3 h2 =>
        split at h
        · exact absurd h (by simp)
        · have hrest : rest = rest3.dropWhile Char.isDigit := by
            simpa using congrArg (fun o => (Option.map (fun p : Nat × Nat × List Char => p.2.2) o).getD rest) h.symm
          have l1 : (rest3.dropWhile Char.isDigit).length ≤ rest3.length :=
            length_dropWhile_le _ _
          have l2 : ('/' :: rest3).length ≤ (rest0.dropWhile isSpaceGo).length := by
            rw [← h2]; exact length_dropWhile_le _ _
          have l3 : (rest0.dropWhile isSpaceGo).length ≤ rest0.length :=
            length_dropWhile_le _ _
          simp [List.length_cons] at l2
          subst hrest
          omega
      next h2 =>
        exact absurd h (by simp)

/-- Worker for the granule scan, structurally recursive on a fuel argument
so that it evaluates by kernel reduction; every step strictly shortens the
input, so fuel equal to the input length is always enough. -/
def findAllGranulesAux : Nat → List Char → List (Nat × Nat)
  | 0, _ => []
  | fuel + 1, cs =>
    match granulesMatch cs with
    | some (x, y, rest) => (x, y) :: findAllGranulesAux fuel rest
    | none =>
      match cs with
      | [] => []
      | _ :: tl => findAllGranulesAux fuel tl

/-- All non-overlapping matches of the granule pattern, scanned left to
right, as FindAllStringSubmatch produces them: try an anchored match at each
position, and on success continue after the end of the match. -/
def findAllGranules (cs : List Char) : List (Nat × Nat) :=
  findAllGranulesAux cs.length cs

theorem findAllGranulesAux_fuel {f₁ f₂ : Nat} {cs : List Char}
    (h₁ : cs.length ≤ f₁) (h₂ : cs.length ≤ f₂) :
    findAllGranulesAux f₁ cs = findAllGranulesAux f₂ cs := by
  induction f₁ generalizing f₂ cs with
  | zero =>
    have : cs = [] := List.length_eq_zero.mp (Nat.le_zero.mp h₁)
    subst this
    cases f₂ with
    | zero => rfl
    | succ f => simp [findAllGranulesAux, granulesMatch, dropLit]
  | succ f ih =>
    cases f₂ with
    | zero =>
      have : cs = [] := List.length_eq_zero.mp (Nat.le_zero.mp h₂)
      subst this
      simp [findAllGranulesAux, granulesMatch, dropLit]
    | succ g =>
      simp only [findAllGranulesAux]
      match hm : granulesMatch cs with
      | some (x, y, rest) =>
        have hlt := granulesMatch_length hm
        dsimp only
        rw [@ih g rest (by omega) (by omega)]
      | none =>
        match cs with
        | [] => rfl
        | c :: tl =>
          simp only []
          exact ih (by simpa using Nat.le_of_succ_le_succ (by simpa using h₁))
            (by simpa using Nat.le_of_succ_le_succ (by simpa using h₂))

/-- Unfolding rule for the granule scan. -/
theorem findAllGranules_eq (cs : List Char) :
    findAllGranules cs =
      match granulesMatch cs with
      | some (x, y, rest) => (x, y) :: findAllGranules rest
      | none =>
        match cs with
        | [] => []
        | _ :: tl => findAllGranules tl := by
  unfold findAllGranules
  cases hl : cs.length with
  | zero =>
    have : cs = [] := List.length_eq_zero.mp hl
    subst this
    simp [findAllGranulesAux, granulesMatch, dropLit]
  | succ n =>
    simp only [findAllGranulesAux]
    match hm : granulesMatch cs with
    | some (x, y, rest) =>
      have hlt := granulesMatch_length hm
      dsimp only
      rw [findAllGranulesAux_fuel (by omega) (le_refl rest.length)]
    | none =>
      match cs with
      | [] => rfl
      | c :: tl =>
        simp only []
        exact findAllGranulesAux_fuel (by simp at hl; omega) (le_refl tl.length)

/-- One step of the minimum fold in ExtractGranules: the accumulator starts
at zero and a match replaces it when the accumulator is zero or the first
captured number is smaller; a first number outside the int64 range makes
Sscanf error and is skipped. -/
def granStep (minVal : Nat) (m : Nat × Nat) : Nat :=
  if m.1 < 2 ^ 63 then
    if minVal = 0 || m.1 < minVal then m.1 else minVal
  else minVal

/-- ExtractGranules from internal/chclient: fold the scanned first capture
groups with granStep starting from zero; zero when there is no match. -/
def ExtractGranules (s : String) : Nat :=
  let ms := findAllGranules s.data
  if ms.isEmpty then 0
  else ms.foldl granStep 0

/-- Match of a pattern against the front of a character list (what the
substring search of strings.Contains checks at each position). -/
def startsWithList : List Char → List Char → Bool
  | _, [] => true
  | [], _ :: _ => false
  | c :: cs, p :: ps => c = p && startsWithList cs ps

/-- strings.Contains on character lists: the pattern matches at some
position of the text. -/
def containsList : List Char → List Char → Bool
  | [], pat => startsWithList [] pat
  | s@(_ :: tl), pat => startsWithList s pat || containsList tl pat

/-- ProjectionUsed from internal/chclient: case-insensitive presence of the
projection marker in the EXPLAIN text (strings.ToLower then
strings.Contains; the inputs involved are ASCII, where Char.toLower agrees
with the Go lowering). -/
def ProjectionUsed (s : String) : Bool :=
  containsList (s.data.map Char.toLower) "projection".data

/-- Worker for strings.ReplaceAll, structurally recursive on fuel (the text
length always suffices, since each step consumes at least one character of
the text when the pattern is non-empty; the engines only call it with a
non-empty pattern). -/
def replaceAllAux : Nat → List Char → List Char → List Char → List Char
  | 0, s, _, _ => s
  | fuel + 1, s, pat, rep =>
    if pat.isEmpty then s
    else if startsWithList s pat then rep ++ replaceAllAux fuel (s.drop pat.length) pat rep
    else
      match s with
      | [] => []
      | c :: tl => c :: replaceAllAux fuel tl pat rep

/-- strings.ReplaceAll for a non-empty pattern: replace every
non-overlapping occurrence, scanning left to right. -/
def replaceAll (s pat rep : String) : String :=
  ⟨replaceAllAux s.data.length s.data pat.data rep.data⟩

/-! ## Task model (internal/tests/definitions.go, newest revision in
src/unnamed/part_002) -/

/-- TaskType is a string in the source; the two defined kinds are below. -/
abbrev TaskType := String

def TaskTypeStructure : TaskType := "structure"

def TaskTypeQuery : TaskType := "query"

/-- Execution options of a task. -/
structure TaskOpts where
  CollectExplain : Bool
  CollectStats : Bool
deriving Repr, DecidableEq

/-- One task to execute. The field named Type in the source is called type
here (Type is not a valid Lean field name). -/
structure Task where
  ID : Nat
  Name : String
  Description : String
  type : TaskType
  Query : String
  Opts : TaskOpts
deriving Repr, DecidableEq

/-- The Go zero value of Task. -/
def taskZero : Task :=
  { ID := 0
    Name := ""
    Description := ""
    type := ""
    Query := ""
    Opts := { CollectExplain := false, CollectStats := false } }

/-- Partition rows and bytes from system.parts. -/
structure PartitionInfo where
  Partition : String
  Rows : Nat
  Bytes : Nat
deriving Repr, DecidableEq

/-- Result of one task execution (the full field set of the newest
revision; the runner under src/internal/runner fills only a subset and
leaves the rest at their Go zero values). -/
structure TestResult where
  TaskID : Nat
  Name : String
  Description : String
  type : TaskType
  Query : String
  Pass : Bool
  Error : String
  Granules : Nat
  ReadRows : Nat
  ReadBytes : Nat
  MemoryUsage : Nat
  QueryID : String
  Partitions : List String
  PartitionDetails : List PartitionInfo
  DurationMs : ℚ
  RowsReturned : Nat
  ProjectionUsed : Bool
  ExplainText : String
deriving Repr, DecidableEq

/-- The Go zero value of TestResult (the content of a result slot never
written, and the starting point of runOne). -/
def zeroTestResult : TestResult :=
  { TaskID := 0
    Name := ""
    Description := ""
    type := ""
    Query := ""
    Pass := false
    Error := ""
    Granules := 0
    ReadRows := 0
    ReadBytes := 0
    MemoryUsage := 0
    QueryID := ""
    Partitions := []
    PartitionDetails := []
    DurationMs := 0
    RowsReturned := 0
    ProjectionUsed := false
    ExplainText := "" }

/-- Aggregated result of a batch run. -/
structure RunResult where
  Total : Nat
  Passed : Nat
  Failed : Nat
  Results : List TestResult
deriving Repr, DecidableEq

/-! ## The client capability consumed by the runner
(internal/chclient Client interface, the four-value Query shape used by
internal/runner/runner.go). Ping and Close are never called by the engines
modelled here. A call that times out or is cancelled surfaces as an error
return. -/

/-- The client as the runner sees it: Query yields rows returned, read rows
and read bytes; Explain yields the EXPLAIN text. -/
structure Client where
  Query : String → Except GoError (Nat × Nat × Nat)
  Explain : String → Except GoError String

/-- A call issued to the client, recorded to state which queries a task
execution does and does not issue. -/
inductive ClientCall where
  | query (sql : String)
  | explain (sql : String)
deriving Repr, DecidableEq

/-! ## Execution engine (internal/runner/runner.go) -/

/-- The data-query step of runOne for Query tasks (source lines 105 to
116): time the call, record the error or the metrics. durMs is the measured
wall-clock duration, an oracle parameter here. -/
def runQueryStep (t : Task) (client : Client) (durMs : ℚ) (tr : TestResult)
    (calls : List ClientCall) : TestResult × List ClientCall :=
  let tr := { tr with DurationMs := durMs }
  match client.Query t.Query with
  | .error e => ({ tr with Error := errMessage e }, calls ++ [.query t.Query])
  | .ok (rows, readRows, readBytes) =>
    ({ tr with
        Pass := true
        RowsReturned := rows
        ReadRows := readRows
        ReadBytes := readBytes }, calls ++ [.query t.Query])

/-- runOne from internal/runner/runner.go: execute one task against the
client. The second component records the client calls issued, in order
(used to state that a call is never issued). The per-task timeout only
manifests as errors returned by the client and is not separately modelled. -/
def runOne (t : Task) (client : Client) (durMs : ℚ) : TestResult × List ClientCall :=
  let tr : TestResult :=
    { zeroTestResult with
      TaskID := t.ID
      Name := t.Name
      Description := t.Description
      type := t.type
      Pass := false }
  if t.type = TaskTypeStructure then
    match client.Query t.Query with
    | .ok _ => ({ tr with Pass := true }, [.query t.Query])
    | .error e => ({ tr with Error := errMessage e }, [.query t.Query])
  else if t.type = TaskTypeQuery then
    if t.Opts.CollectExplain then
      match client.Explain t.Query with
      | .error e => ({ tr with Error := "EXPLAIN: " ++ errMessage e }, [.explain t.Query])
      | .ok explainText =>
        runQueryStep t client durMs
          { tr with
            ExplainText := explainText
            Granules := ExtractGranules explainText }
          [.explain t.Query]
    else
      runQueryStep t client durMs tr []
  else
    (tr, [])

/-- The result collection loop of Run (source lines 60 to 67): receive
(index, result) items in completion order, place each in its slot, and
count passes and failures. f computes the result for a task index. -/
def runCollect (f : Nat → TestResult) (acc : RunResult) : List Nat → RunResult
  | [] => acc
  | i :: rest =>
    runCollect f
      { acc with
        Results := acc.Results.set i (f i)
        Passed := if (f i).Pass then acc.Passed + 1 else acc.Passed
        Failed := if (f i).Pass then acc.Failed else acc.Failed + 1 }
      rest

/-- Run from internal/runner/runner.go. Worker goroutines pull task indices
from a shared channel and send back (index, result) pairs; order is the
sequence in which the pairs arrive on the result channel, an arbitrary
permutation of the indices (theorems quantify over it). durs i is the
wall-clock duration oracle for task i. The worker count is clamped to a
minimum of 1 and cannot influence the pure result. The Go error returned
by Run is always nil and is dropped here. -/
def Run (tasks : List Task) (workers : Nat) (client : Client) (durs : Nat → ℚ)
    (order : List Nat) : RunResult :=
  let _workers := max workers 1
  if tasks.length = 0 then { Total := 0, Passed := 0, Failed := 0, Results := [] }
  else
    runCollect (fun i => (runOne (tasks.getD i taskZero) client (durs i)).1)
      { Total := tasks.length
        Passed := 0
        Failed := 0
        Results := List.replicate tasks.length zeroTestResult }
      order

/-! ## Stress engine (internal/runner/stress.go) -/

def timeOffsetPlaceholder : String := "$time_offset_ms$"

/-- The base-query preparation of RunStress (source lines 40 to 43): append
an inert marker when the cache-busting placeholder is absent. -/
def prepareBaseQuery (baseQuery : String) : String :=
  if containsList baseQuery.data timeOffsetPlaceholder.data then baseQuery
  else baseQuery ++ " -- no $time_offset_ms$"

/-- atomic.AddUint64 on the shared offset counter: one serialised atomic
increment, wrapping at 2 ^ 64, returning the new counter and the drawn
value. -/
def atomicAddUint64 (counter : Nat) : Nat × Nat :=
  let v := (counter + 1) % 2 ^ 64
  (v, v)

/-- The values handed out by n successive atomic increments of the shared
counter, in serialisation order, starting from counter state c. Atomicity
means every concurrent execution of the workers corresponds to exactly one
such serialisation, whatever the worker count. -/
def offsetDraws : Nat → Nat → List Nat
  | _, 0 => []
  | c, n + 1 =>
    let p := atomicAddUint64 c
    p.2 :: offsetDraws p.1 n

/-- The query text generated for one stress iteration (source line 69):
substitute the drawn offset, in decimal, for every occurrence of the
placeholder. -/
def stressIterationQuery (preparedBase : String) (offset : Nat) : String :=
  replaceAll preparedBase timeOffsetPlaceholder (toString offset)

/-- The record a stress worker sends for one call: measured duration and
the error, if any. -/
structure StressRecord where
  durationMs : ℚ
  err : Option GoError
deriving Repr, DecidableEq

/-- Classification of one stress call. -/
inductive Outcome where
  | success
  | failed
  | cancelled
deriving Repr, DecidableEq

/-- The per-call classification applied by the aggregation loop of
RunStress (source lines 94 to 113): nil error is a success, an error that
is or wraps context cancellation or deadline expiry is cancelled, any
other error is failed. -/
def classifyOutcome : Option GoError → Outcome
  | none => .success
  | some e => if isContextCanceled e then .cancelled else .failed

/-- The mutable aggregation state of the RunStress collection loop. -/
structure StressAccum where
  total : Nat
  success : Nat
  failed : Nat
  cancelled : Nat
  latencies : List ℚ
  errorSamples : List String
deriving Repr, DecidableEq

def stressAccumZero : StressAccum :=
  { total := 0
    success := 0
    failed := 0
    cancelled := 0
    latencies := []
    errorSamples := [] }

/-- One iteration of the RunStress collection loop (source lines 94 to
113). -/
def stressStep (acc : StressAccum) (r : StressRecord) : StressAccum :=
  let acc := { acc with total := acc.total + 1 }
  match r.err with
  | some e =>
    if isContextCanceled e then { acc with cancelled := acc.cancelled + 1 }
    else
      { acc with
        failed := acc.failed + 1
        errorSamples :=
          if acc.errorSamples.length < 5 then acc.errorSamples ++ [errMessage e]
          else acc.errorSamples }
  | none =>
    { acc with
      success := acc.success + 1
      latencies := acc.latencies ++ [r.durationMs] }

/-- Drain the whole stream of per-call records. -/
def stressAccum (records : List StressRecord) : StressAccum :=
  records.foldl stressStep stressAccumZero

/-- Aggregate result of a stress run. -/
structure StressResult where
  Total : Nat
  Success : Nat
  Failed : Nat
  Cancelled : Nat
  DurationSec : ℚ
  QPS : ℚ
  LatencyP50Ms : ℚ
  LatencyP95Ms : ℚ
  LatencyP99Ms : ℚ
  ErrorSamples : List String
deriving Repr, DecidableEq

/-- percentile from internal/runner/stress.go: index the ascending-sorted
latencies at n times p over 100, integer division, clamped to n minus 1;
zero when n is zero. -/
def percentile (sorted : List ℚ) (n p : Nat) : ℚ :=
  if n = 0 then 0
  else
    let idx := n * p / 100
    let idx := if idx ≥ n then n - 1 else idx
    sorted.getD idx 0

/-- The final aggregation of RunStress (source lines 114 to 134):
durationSec is the measured wall-clock run time (an oracle parameter);
QPS is total over durationSec when positive; the latency percentiles are
computed from the ascending sort of the successful-call latencies when
there is at least one, and stay zero otherwise. -/
def stressAggregate (records : List StressRecord) (durationSec : ℚ) : StressResult :=
  let acc := stressAccum records
  let result : StressResult :=
    { Total := acc.total
      Success := acc.success
      Failed := acc.failed
      Cancelled := acc.cancelled
      DurationSec := durationSec
      QPS := 0
      LatencyP50Ms := 0
      LatencyP95Ms := 0
      LatencyP99Ms := 0
      ErrorSamples := acc.errorSamples }
  let result :=
    if 0 < durationSec then { result with QPS := (acc.total : ℚ) / durationSec }
    else result
  if 0 < acc.latencies.length then
    let sortedL := acc.latencies.insertionSort (· ≤ ·)
    let n := acc.latencies.length
    { result with
      LatencyP50Ms := percentile sortedL n 50
      LatencyP95Ms := percentile sortedL n 95
      LatencyP99Ms := percentile sortedL n 99 }
  else result

/-! ## Helper lemmas about the collection loop and runOne -/

theorem runCollect_Total (f : Nat → TestResult) (acc : RunResult) (order : List Nat) :
    (runCollect f acc order).Total = acc.Total := by
  induction order generalizing acc with
  | nil => rfl
  | cons i rest ih => simp [runCollect, ih]

theorem runCollect_length (f : Nat → TestResult) (acc : RunResult) (order : List Nat) :
    (runCollect f acc order).Results.length = acc.Results.length := by
  induction order generalizing acc with
  | nil => rfl
  | cons i rest ih => simp [runCollect, ih]

theorem runCollect_Passed (f : Nat → TestResult) (acc : RunResult) (order : List Nat) :
    (runCollect f acc order).Passed
      = acc.Passed + (order.filter (fun i => (f i).Pass)).length := by
  induction order generalizing acc with
  | nil => simp [runCollect]
  | cons i rest ih =>
    by_cases h : (f i).Pass
    · simp [runCollect, h, ih, List.filter]
      omega
    · simp [runCollect, h, ih, List.filter]

theorem runCollect_Failed (f : Nat → TestResult) (acc : RunResult) (order : List Nat) :
    (runCollect f acc order).Failed
      = acc.Failed + (order.filter (fun i => ! (f i).Pass)).length := by
  induction order generalizing acc with
  | nil => simp [runCollect]
  | cons i rest ih =>
    by_cases h : (f i).Pass
    · simp [runCollect, h, ih, List.filter]
    · simp [runCollect, h, ih, List.filter]
      omega

theorem runCollect_getD_not_mem (f : Nat → TestResult) (acc : RunResult)
    (order : List Nat) (j : Nat) (hj : j ∉ order) (d : TestResult) :
    (runCollect f acc order).Results.getD j d = acc.Results.getD j d := by
  induction order generalizing acc with
  | nil => rfl
  | cons i rest ih =>
    have hij : i ≠ j := fun h => hj (h ▸ List.mem_cons_self i rest)
    have hrest : j ∉ rest := fun h => hj (List.mem_cons_of_mem i h)
    rw [runCollect, ih _ hrest]
    simp only [List.getD_eq_getElem?_getD]
    rw [List.getElem?_set_ne hij]

theorem runCollect_getD_mem (f : Nat → TestResult) (acc : RunResult)
    (order : List Nat) (j : Nat) (hj : j ∈ order)
    (hlt : j < acc.Results.length) (d : TestResult) :
    (runCollect f acc order).Results.getD j d = f j := by
  induction order generalizing acc with
  | nil => simp at hj
  | cons i rest ih =>
    by_cases hr : j ∈ rest
    · rw [runCollect]
      exact ih _ hr (by simpa using hlt)
    · have hij : i = j := by
        rcases List.mem_cons.mp hj with h | h
        · exact h.symm
        · exact absurd h hr
      subst hij
      rw [runCollect, runCollect_getD_not_mem _ _ _ _ hr]
      simp only [List.getD_eq_getElem?_getD]
      rw [List.getElem?_set_self (by simpa using hlt)]
      rfl

theorem length_filter_add_length_filter_not (l : List Nat) (p : Nat → Bool) :
    (l.filter p).length + (l.filter (fun x => ! p x)).length = l.length := by
  induction l with
  | nil => simp
  | cons a as ih =>
    by_cases h : p a <;> simp [List.filter, h, ← ih] <;> omega

theorem runOne_TaskID (t : Task) (client : Client) (durMs : ℚ) :
    ((runOne t client durMs).1).TaskID = t.ID := by
  unfold runOne runQueryStep
  repeat' split
  all_goals rfl

/-! ## Claim theorems -/

/-- C1: for every non-empty task list and every worker count at least 1,
Run returns a RunResult whose Results slice has the length of the input
task list and, at every index i, Results[i].TaskID equals tasks[i].ID,
whatever order the workers complete the tasks in (order ranges over every
permutation of the task indices). -/
theorem run_preserves_input_order
    (tasks : List Task) (workers : Nat) (client : Client) (durs : Nat → ℚ)
    (order : List Nat) (hne : tasks ≠ []) (hw : 1 ≤ workers)
    (hperm : order.Perm (List.range tasks.length)) :
    (Run tasks workers client durs order).Results.length = tasks.length ∧
    ∀ i, i < tasks.length →
      ((Run tasks workers client durs order).Results.getD i zeroTestResult).TaskID
        = (tasks.getD i taskZero).ID := by
  have h0 : tasks.length ≠ 0 := fun h => hne (List.length_eq_zero.mp h)
  simp only [Run, if_neg h0]
  constructor
  · rw [runCollect_length]
    simp
  · intro i hi
    rw [runCollect_getD_mem]
    · exact runOne_TaskID _ _ _
    · exact hperm.mem_iff.mpr (List.mem_range.mpr hi)
    · simpa using hi

/-- Witness for C1 at a concrete two-task list and completion order [1, 0]. -/
theorem run_preserves_input_order_witness :
    (Run [{ taskZero with ID := 1, type := "structure", Query := "A" }, { taskZero with ID := 2, type := "query", Query := "B" }] 2 { Query := fun _ => Except.ok (3, 4, 5), Explain := fun _ => Except.ok "" } (fun _ => 0) [1, 0]).Results.length = 2 ∧
    ((Run [{ taskZero with ID := 1, type := "structure", Query := "A" }, { taskZero with ID := 2, type := "query", Query := "B" }] 2 { Query := fun _ => Except.ok (3, 4, 5), Explain := fun _ => Except.ok "" } (fun _ => 0) [1, 0]).Results.getD 0 zeroTestResult).TaskID = 1 ∧
    ((Run [{ taskZero with ID := 1, type := "structure", Query := "A" }, { taskZero with ID := 2, type := "query", Query := "B" }] 2 { Query := fun _ => Except.ok (3, 4, 5), Explain := fun _ => Except.ok "" } (fun _ => 0) [1, 0]).Results.getD 1 zeroTestResult).TaskID = 2 := by
  have h := run_preserves_input_order
    [{ taskZero with ID := 1, type := "structure", Query := "A" }, { taskZero with ID := 2, type := "query", Query := "B" }] 2 { Query := fun _ => Except.ok (3, 4, 5), Explain := fun _ => Except.ok "" } (fun _ => 0) [1, 0]
    (by decide) (by decide) (by decide)
  exact ⟨h.1, h.2 0 (by decide), h.2 1 (by decide)⟩

/-- C2: for every task list (empty included), any worker count and any
completion order, Run satisfies Total equal to the length of Results and
to the task count, Passed plus Failed equal to Total, and Passed and
Failed count exactly the tasks whose computed result passes and fails: no
task is dropped or duplicated, and a task whose client call fails (for
example by timeout) contributes a failed result, not an absence. -/
theorem run_counts_every_task_once
    (tasks : List Task) (workers : Nat) (client : Client) (durs : Nat → ℚ)
    (order : List Nat) (hperm : order.Perm (List.range tasks.length)) :
    (Run tasks workers client durs order).Total = tasks.length ∧
    (Run tasks workers client durs order).Results.length = tasks.length ∧
    (Run tasks workers client durs order).Passed
        + (Run tasks workers client durs order).Failed
      = (Run tasks workers client durs order).Total ∧
    (Run tasks workers client durs order).Passed
      = ((List.range tasks.length).filter
          (fun i => ((runOne (tasks.getD i taskZero) client (durs i)).1).Pass)).length ∧
    (Run tasks workers client durs order).Failed
      = ((List.range tasks.length).filter
          (fun i => ! ((runOne (tasks.getD i taskZero) client (durs i)).1).Pass)).length := by
  by_cases h0 : tasks.length = 0
  · have horder : order = [] := List.Perm.eq_nil (by simpa [h0, List.range_zero] using hperm)
    simp [Run, h0, horder, List.length_eq_zero.mp h0]
  · simp only [Run, if_neg h0]
    refine ⟨runCollect_Total _ _ _, by rw [runCollect_length]; simp, ?_, ?_, ?_⟩
    · rw [runCollect_Total, runCollect_Passed, runCollect_Failed]
      have hp := (hperm.filter
        (fun i => ((runOne (tasks.getD i taskZero) client (durs i)).1).Pass)).length_eq
      have hf := (hperm.filter
        (fun i => ! ((runOne (tasks.getD i taskZero) client (durs i)).1).Pass)).length_eq
      have hs := length_filter_add_length_filter_not (List.range tasks.length)
        (fun i => ((runOne (tasks.getD i taskZero) client (durs i)).1).Pass)
      simp only [List.length_range] at hs
      dsimp only
      omega
    · rw [runCollect_Passed]
      simpa using (hperm.filter
        (fun i => ((runOne (tasks.getD i taskZero) client (durs i)).1).Pass)).length_eq
    · rw [runCollect_Failed]
      simpa using (hperm.filter
        (fun i => ! ((runOne (tasks.getD i taskZero) client (durs i)).1).Pass)).length_eq

/-- Witness for C2 at a concrete run where the second task's data query
errors: one passed, one failed, both accounted. -/
theorem run_counts_every_task_once_witness :
    (Run [{ taskZero with ID := 1, type := "structure", Query := "A" }, { taskZero with ID := 2, type := "query", Query := "B" }] 2 { Query := fun sql => if sql = "B" then Except.error (GoError.leaf "boom") else Except.ok (1, 2, 3), Explain := fun _ => Except.ok "" } (fun _ => 0) [0, 1]).Total = 2 ∧
    (Run [{ taskZero with ID := 1, type := "structure", Query := "A" }, { taskZero with ID := 2, type := "query", Query := "B" }] 2 { Query := fun sql => if sql = "B" then Except.error (GoError.leaf "boom") else Except.ok (1, 2, 3), Explain := fun _ => Except.ok "" } (fun _ => 0) [0, 1]).Passed + (Run [{ taskZero with ID := 1, type := "structure", Query := "A" }, { taskZero with ID := 2, type := "query", Query := "B" }] 2 { Query := fun sql => if sql = "B" then Except.error (GoError.leaf "boom") else Except.ok (1, 2, 3), Explain := fun _ => Except.ok "" } (fun _ => 0) [0, 1]).Failed = (Run [{ taskZero with ID := 1, type := "structure", Query := "A" }, { taskZero with ID := 2, type := "query", Query := "B" }] 2 { Query := fun sql => if sql = "B" then Except.error (GoError.leaf "boom") else Except.ok (1, 2, 3), Explain := fun _ => Except.ok "" } (fun _ => 0) [0, 1]).Total ∧
    (Run [{ taskZero with ID := 1, type := "structure", Query := "A" }, { taskZero with ID := 2, type := "query", Query := "B" }] 2 { Query := fun sql => if sql = "B" then Except.error (GoError.leaf "boom") else Except.ok (1, 2, 3), Explain := fun _ => Except.ok "" } (fun _ => 0) [0, 1]).Passed = 1 ∧
    (Run [{ taskZero with ID := 1, type := "structure", Query := "A" }, { taskZero with ID := 2, type := "query", Query := "B" }] 2 { Query := fun sql => if sql = "B" then Except.error (GoError.leaf "boom") else Except.ok (1, 2, 3), Explain := fun _ => Except.ok "" } (fun _ => 0) [0, 1]).Failed = 1 := by
  have h := run_counts_every_task_once
    [{ taskZero with ID := 1, type := "structure", Query := "A" }, { taskZero with ID := 2, type := "query", Query := "B" }] 2 { Query := fun sql => if sql = "B" then Except.error (GoError.leaf "boom") else Except.ok (1, 2, 3), Explain := fun _ => Except.ok "" } (fun _ => 0) [0, 1] (by decide)
  exact ⟨h.1, h.2.2.1, h.2.2.2.1, h.2.2.2.2⟩

theorem taskTypeQuery_ne_structure : (TaskTypeQuery : String) ≠ TaskTypeStructure := by
  decide

/-- C3: a Query task with CollectExplain set whose EXPLAIN call errors
passes no data query to the client (the only call issued is the EXPLAIN),
and its result fails with an error string carrying the EXPLAIN marker and
the failure detail. -/
theorem query_explain_failure_skips_data_query
    (t : Task) (client : Client) (durMs : ℚ) (e : GoError)
    (ht : t.type = TaskTypeQuery) (hce : t.Opts.CollectExplain = true)
    (hex : client.Explain t.Query = .error e) :
    ((runOne t client durMs).1).Pass = false ∧
    ((runOne t client durMs).1).Error = "EXPLAIN: " ++ errMessage e ∧
    (runOne t client durMs).2 = [ClientCall.explain t.Query] := by
  have hne : ¬ (t.type = TaskTypeStructure) := by
    rw [ht]; exact taskTypeQuery_ne_structure
  simp only [runOne, if_neg hne, ht, if_pos rfl, hce, if_true, hex]
  exact ⟨rfl, rfl, rfl⟩

/-- Witness for C3 at a concrete task and a client whose Explain errors. -/
theorem query_explain_failure_skips_data_query_witness :
    (runOne { taskZero with ID := 1, type := "query", Query := "SELECT 1", Opts := { CollectExplain := true, CollectStats := true } } { Query := fun _ => Except.ok (3, 4, 5), Explain := fun _ => Except.error (GoError.leaf "boom") } 0).1.Pass = false ∧
    (runOne { taskZero with ID := 1, type := "query", Query := "SELECT 1", Opts := { CollectExplain := true, CollectStats := true } } { Query := fun _ => Except.ok (3, 4, 5), Explain := fun _ => Except.error (GoError.leaf "boom") } 0).1.Error = "EXPLAIN: boom" ∧
    (runOne { taskZero with ID := 1, type := "query", Query := "SELECT 1", Opts := { CollectExplain := true, CollectStats := true } } { Query := fun _ => Except.ok (3, 4, 5), Explain := fun _ => Except.error (GoError.leaf "boom") } 0).2 = [ClientCall.explain "SELECT 1"] := by
  have h := query_explain_failure_skips_data_query
    { taskZero with ID := 1, type := "query", Query := "SELECT 1", Opts := { CollectExplain := true, CollectStats := true } } { Query := fun _ => Except.ok (3, 4, 5), Explain := fun _ => Except.error (GoError.leaf "boom") } 0 (GoError.leaf "boom") rfl rfl rfl
  exact ⟨h.1, h.2.1, h.2.2⟩

/-- C8: a Query task with CollectExplain set whose EXPLAIN succeeds but
whose data query errors yields a failed result carrying the data-query
error, while the EXPLAIN text and the granule count extracted from it are
preserved unchanged in the returned result. -/
theorem query_data_error_preserves_explain_fields
    (t : Task) (client : Client) (durMs : ℚ) (txt : String) (e : GoError)
    (ht : t.type = TaskTypeQuery) (hce : t.Opts.CollectExplain = true)
    (hex : client.Explain t.Query = .ok txt)
    (hq : client.Query t.Query = .error e) :
    ((runOne t client durMs).1).Pass = false ∧
    ((runOne t client durMs).1).Error = errMessage e ∧
    ((runOne t client durMs).1).ExplainText = txt ∧
    ((runOne t client durMs).1).Granules = ExtractGranules txt ∧
    ((runOne t client durMs).1).DurationMs = durMs ∧
    (runOne t client durMs).2 = [ClientCall.explain t.Query, ClientCall.query t.Query] := by
  have hne : ¬ (t.type = TaskTypeStructure) := by
    rw [ht]; exact taskTypeQuery_ne_structure
  simp only [runOne, if_neg hne, ht, if_pos rfl, hce, if_true, hex, runQueryStep, hq]
  exact ⟨rfl, rfl, rfl, rfl, rfl, rfl⟩

/-- Witness for C8 at a concrete task whose data query errors after a
successful EXPLAIN. -/
theorem query_data_error_preserves_explain_fields_witness :
    (runOne { taskZero with ID := 1, type := "query", Query := "SELECT 1", Opts := { CollectExplain := true, CollectStats := true } } { Query := fun _ => Except.error (GoError.leaf "net down"), Explain := fun _ => Except.ok "Granules: 3/10" } 0).1.Pass = false ∧
    (runOne { taskZero with ID := 1, type := "query", Query := "SELECT 1", Opts := { CollectExplain := true, CollectStats := true } } { Query := fun _ => Except.error (GoError.leaf "net down"), Explain := fun _ => Except.ok "Granules: 3/10" } 0).1.Error = "net down" ∧
    (runOne { taskZero with ID := 1, type := "query", Query := "SELECT 1", Opts := { CollectExplain := true, CollectStats := true } } { Query := fun _ => Except.error (GoError.leaf "net down"), Explain := fun _ => Except.ok "Granules: 3/10" } 0).1.ExplainText = "Granules: 3/10" ∧
    (runOne { taskZero with ID := 1, type := "query", Query := "SELECT 1", Opts := { CollectExplain := true, CollectStats := true } } { Query := fun _ => Except.error (GoError.leaf "net down"), Explain := fun _ => Except.ok "Granules: 3/10" } 0).1.Granules = 3 := by
  have h := query_data_error_preserves_explain_fields
    { taskZero with ID := 1, type := "query", Query := "SELECT 1", Opts := { CollectExplain := true, CollectStats := true } } { Query := fun _ => Except.error (GoError.leaf "net down"), Explain := fun _ => Except.ok "Granules: 3/10" } 0 "Granules: 3/10" (GoError.leaf "net down") rfl rfl rfl rfl
  exact ⟨h.1, h.2.1, h.2.2.1, h.2.2.2.1⟩

/-- C4 (amended): a Query task with CollectExplain set whose EXPLAIN and
data query both succeed passes and records the granule count extracted
from the EXPLAIN text, the EXPLAIN text itself, the rows returned, the
read rows and the read bytes; the projection-usage flag, memory usage and
partition and query-id metadata stay at their zero values — this runner
never computes them, and its four-value client interface carries no stats
object to take them from. -/
theorem query_success_records_rows_and_explain_metrics
    (t : Task) (client : Client) (durMs : ℚ) (txt : String)
    (rows readRows readBytes : Nat)
    (ht : t.type = TaskTypeQuery) (hce : t.Opts.CollectExplain = true)
    (hex : client.Explain t.Query = .ok txt)
    (hq : client.Query t.Query = .ok (rows, readRows, readBytes)) :
    ((runOne t client durMs).1).Pass = true ∧
    ((runOne t client durMs).1).Granules = ExtractGranules txt ∧
    ((runOne t client durMs).1).ExplainText = txt ∧
    ((runOne t client durMs).1).RowsReturned = rows ∧
    ((runOne t client durMs).1).ReadRows = readRows ∧
    ((runOne t client durMs).1).ReadBytes = readBytes ∧
    ((runOne t client durMs).1).DurationMs = durMs ∧
    ((runOne t client durMs).1).MemoryUsage = 0 ∧
    ((runOne t client durMs).1).QueryID = "" ∧
    ((runOne t client durMs).1).Partitions = [] ∧
    ((runOne t client durMs).1).PartitionDetails = [] ∧
    ((runOne t client durMs).1).ProjectionUsed = false := by
  have hne : ¬ (t.type = TaskTypeStructure) := by
    rw [ht]; exact taskTypeQuery_ne_structure
  simp only [runOne, if_neg hne, ht, if_pos rfl, hce, if_true, hex, runQueryStep, hq]
  exact ⟨rfl, rfl, rfl, rfl, rfl, rfl, rfl, rfl, rfl, rfl, rfl, rfl⟩

/-- Witness for the amended C4 at a concrete fully successful Query task. -/
theorem query_success_records_rows_and_explain_metrics_witness :
    (runOne { taskZero with ID := 1, type := "query", Query := "SELECT 1", Opts := { CollectExplain := true, CollectStats := true } } { Query := fun _ => Except.ok (5, 100, 1000), Explain := fun _ => Except.ok "Granules: 3/10 with Projection p1" } 0).1.Pass = true ∧
    (runOne { taskZero with ID := 1, type := "query", Query := "SELECT 1", Opts := { CollectExplain := true, CollectStats := true } } { Query := fun _ => Except.ok (5, 100, 1000), Explain := fun _ => Except.ok "Granules: 3/10 with Projection p1" } 0).1.Granules = 3 ∧
    (runOne { taskZero with ID := 1, type := "query", Query := "SELECT 1", Opts := { CollectExplain := true, CollectStats := true } } { Query := fun _ => Except.ok (5, 100, 1000), Explain := fun _ => Except.ok "Granules: 3/10 with Projection p1" } 0).1.RowsReturned = 5 ∧
    (runOne { taskZero with ID := 1, type := "query", Query := "SELECT 1", Opts := { CollectExplain := true, CollectStats := true } } { Query := fun _ => Except.ok (5, 100, 1000), Explain := fun _ => Except.ok "Granules: 3/10 with Projection p1" } 0).1.ReadRows = 100 ∧
    (runOne { taskZero with ID := 1, type := "query", Query := "SELECT 1", Opts := { CollectExplain := true, CollectStats := true } } { Query := fun _ => Except.ok (5, 100, 1000), Explain := fun _ => Except.ok "Granules: 3/10 with Projection p1" } 0).1.ReadBytes = 1000 := by
  have h := query_success_records_rows_and_explain_metrics
    { taskZero with ID := 1, type := "query", Query := "SELECT 1", Opts := { CollectExplain := true, CollectStats := true } } { Query := fun _ => Except.ok (5, 100, 1000), Explain := fun _ => Except.ok "Granules: 3/10 with Projection p1" } 0 "Granules: 3/10 with Projection p1" 5 100 1000 rfl rfl rfl rfl
  exact ⟨h.1, h.2.1, h.2.2.2.1, h.2.2.2.2.1, h.2.2.2.2.2.1⟩

/-- Counterexample to C4 as stated: a fully successful Query task whose
EXPLAIN text names a projection (the extraction collaborator reports the
flag as true) still gets ProjectionUsed equal to false in its result, and
its memory-usage and partition and query-id fields stay zero: the runner
records neither the projection-usage flag nor any stats-object metadata. -/
theorem query_success_stats_not_recorded_counterexample :
    (runOne { taskZero with ID := 1, type := "query", Query := "SELECT 1", Opts := { CollectExplain := true, CollectStats := true } } { Query := fun _ => Except.ok (5, 100, 1000), Explain := fun _ => Except.ok "Granules: 3/10 with Projection p1" } 0).1.Pass = true ∧
    ProjectionUsed "Granules: 3/10 with Projection p1" = true ∧
    (runOne { taskZero with ID := 1, type := "query", Query := "SELECT 1", Opts := { CollectExplain := true, CollectStats := true } } { Query := fun _ => Except.ok (5, 100, 1000), Explain := fun _ => Except.ok "Granules: 3/10 with Projection p1" } 0).1.ProjectionUsed = false ∧
    (runOne { taskZero with ID := 1, type := "query", Query := "SELECT 1", Opts := { CollectExplain := true, CollectStats := true } } { Query := fun _ => Except.ok (5, 100, 1000), Explain := fun _ => Except.ok "Granules: 3/10 with Projection p1" } 0).1.MemoryUsage = 0 ∧
    (runOne { taskZero with ID := 1, type := "query", Query := "SELECT 1", Opts := { CollectExplain := true, CollectStats := true } } { Query := fun _ => Except.ok (5, 100, 1000), Explain := fun _ => Except.ok "Granules: 3/10 with Projection p1" } 0).1.QueryID = "" ∧
    (runOne { taskZero with ID := 1, type := "query", Query := "SELECT 1", Opts := { CollectExplain := true, CollectStats := true } } { Query := fun _ => Except.ok (5, 100, 1000), Explain := fun _ => Except.ok "Granules: 3/10 with Projection p1" } 0).1.Partitions = [] := by
  decide

/-- C10: a task whose type is neither the structure kind nor the query kind
is never handed to the client — runOne issues no call — yet its slot gets a
result with Pass false and an empty error string, counted in Failed. -/
theorem unknown_kind_task_not_executed_but_counted
    (t : Task) (client : Client) (durMs : ℚ)
    (h1 : t.type ≠ TaskTypeStructure) (h2 : t.type ≠ TaskTypeQuery) :
    (runOne t client durMs).2 = [] ∧
    ((runOne t client durMs).1).Pass = false ∧
    ((runOne t client durMs).1).Error = "" ∧
    (∀ (tasks : List Task) (workers : Nat) (durs : Nat → ℚ) (order : List Nat) (i : Nat),
      order.Perm (List.range tasks.length) → i < tasks.length →
      tasks.getD i taskZero = t →
      ((Run tasks workers client durs order).Results.getD i zeroTestResult).Pass = false ∧
      ((Run tasks workers client durs order).Results.getD i zeroTestResult).Error = "" ∧
      0 < (Run tasks workers client durs order).Failed) := by
  have hro : ∀ d : ℚ, runOne t client d =
      ({ zeroTestResult with
          TaskID := t.ID
          Name := t.Name
          Description := t.Description
          type := t.type
          Pass := false }, []) := by
    intro d
    simp only [runOne, if_neg h1, if_neg h2]
  refine ⟨by rw [hro], by rw [hro], by rw [hro]; rfl, ?_⟩
  intro tasks workers durs order i hperm hi hgetD
  have h0 : tasks.length ≠ 0 := Nat.not_eq_zero_of_lt hi
  have hmem : i ∈ order := hperm.mem_iff.mpr (List.mem_range.mpr hi)
  have hslot :
      (Run tasks workers client durs order).Results.getD i zeroTestResult
        = (runOne (tasks.getD i taskZero) client (durs i)).1 := by
    simp only [Run, if_neg h0]
    exact runCollect_getD_mem _ _ _ _ hmem (by simpa using hi) _
  rw [hgetD, hro] at hslot
  refine ⟨by rw [hslot], by rw [hslot]; rfl, ?_⟩
  have hfail :
      (Run tasks workers client durs order).Failed
        = (order.filter
            (fun j => ! ((runOne (tasks.getD j taskZero) client (durs j)).1).Pass)).length := by
    simp only [Run, if_neg h0]
    rw [runCollect_Failed]
    simp
  have hpredi :
      (fun j => ! ((runOne (tasks.getD j taskZero) client (durs j)).1).Pass) i = true := by
    simp only [hgetD, hro]
    rfl
  have hmemf : i ∈ order.filter
      (fun j => ! ((runOne (tasks.getD j taskZero) client (durs j)).1).Pass) :=
    List.mem_filter.mpr ⟨hmem, hpredi⟩
  rw [hfail]
  exact List.length_pos.mpr (List.ne_nil_of_mem hmemf)

/-- Witness for C10 at a concrete task of a kind the engine does not
define. -/
theorem unknown_kind_task_not_executed_but_counted_witness :
    (runOne { taskZero with ID := 7, type := "mystery" } { Query := fun _ => Except.ok (3, 4, 5), Explain := fun _ => Except.ok "" } 0).2 = [] ∧
    (runOne { taskZero with ID := 7, type := "mystery" } { Query := fun _ => Except.ok (3, 4, 5), Explain := fun _ => Except.ok "" } 0).1.Pass = false ∧
    (runOne { taskZero with ID := 7, type := "mystery" } { Query := fun _ => Except.ok (3, 4, 5), Explain := fun _ => Except.ok "" } 0).1.Error = "" ∧
    0 < (Run [{ taskZero with ID := 7, type := "mystery" }] 1 { Query := fun _ => Except.ok (3, 4, 5), Explain := fun _ => Except.ok "" } (fun _ => 0) [0]).Failed := by
  have h := unknown_kind_task_not_executed_but_counted
    { taskZero with ID := 7, type := "mystery" } { Query := fun _ => Except.ok (3, 4, 5), Explain := fun _ => Except.ok "" } 0 (by decide) (by decide)
  exact ⟨h.1, h.2.1, h.2.2.1,
    (h.2.2.2 [{ taskZero with ID := 7, type := "mystery" }] 1 (fun _ => 0) [0] 0 (by decide) (by decide) rfl).2.2⟩

/-! ## The minimum fold of ExtractGranules -/

theorem granStep_cases (acc : Nat) (m : Nat × Nat) (hacc : acc ≠ 0)
    (hm : m.1 < 2 ^ 63) :
    granStep acc m = if m.1 < acc then m.1 else acc := by
  unfold granStep
  rw [if_pos hm]
  simp [hacc]

theorem granFold_min (ms : List (Nat × Nat)) (acc : Nat) (hacc : 0 < acc)
    (hms : ∀ m ∈ ms, 0 < m.1 ∧ m.1 < 2 ^ 63) :
    (ms.foldl granStep acc = acc ∨ ms.foldl granStep acc ∈ ms.map Prod.fst) ∧
    ms.foldl granStep acc ≤ acc ∧
    ∀ x ∈ ms.map Prod.fst, ms.foldl granStep acc ≤ x := by
  induction ms generalizing acc with
  | nil => simp
  | cons m rest ih =>
    obtain ⟨hm1, hm2⟩ := hms m (List.mem_cons_self m rest)
    have hrest : ∀ x ∈ rest, 0 < x.1 ∧ x.1 < 2 ^ 63 :=
      fun x hx => hms x (List.mem_cons_of_mem m hx)
    have hstep := granStep_cases acc m hacc.ne' hm2
    have hpos : 0 < granStep acc m := by
      rw [hstep]; split
      · exact hm1
      · exact hacc
    have hle_acc : granStep acc m ≤ acc := by
      rw [hstep]; split <;> omega
    have hle_m : granStep acc m ≤ m.1 := by
      rw [hstep]; split <;> omega
    have hcase : granStep acc m = m.1 ∨ granStep acc m = acc := by
      rw [hstep]; split
      · exact Or.inl rfl
      · exact Or.inr rfl
    obtain ⟨ihmem, ihle, ihall⟩ := ih (granStep acc m) hpos hrest
    simp only [List.foldl_cons, List.map_cons]
    refine ⟨?_, ?_, ?_⟩
    · rcases ihmem with h | h
      · rcases hcase with h2 | h2
        · right
          rw [h, h2]
          exact List.mem_cons_self _ _
        · left
          rw [h, h2]
      · right
        exact List.mem_cons_of_mem _ h
    · exact le_trans ihle hle_acc
    · intro x hx
      rcases List.mem_cons.mp hx with rfl | hx
      · exact le_trans ihle hle_m
      · exact ihall x hx

/-- C5 (amended): when every matched pair has a positive first component
(within the int64 range the Sscanf parse accepts), ExtractGranules returns
the minimum of the first components of the matches, and it returns 0 when
there is no match; on the input with pairs 100/500 and 40/500 it returns
40. The restriction to positive components is forced by the accumulator of
the source, which starts at 0 and treats 0 as the not-yet-set marker, so a
matched first component of 0 is not returned as the minimum (see the
counterexample). -/
theorem extractGranules_min_of_positive_matches (s : String) :
    ((findAllGranules s.data ≠ [] ∧
        ∀ m ∈ findAllGranules s.data, 0 < m.1 ∧ m.1 < 2 ^ 63) →
      ExtractGranules s ∈ (findAllGranules s.data).map Prod.fst ∧
      ∀ x ∈ (findAllGranules s.data).map Prod.fst, ExtractGranules s ≤ x) ∧
    (findAllGranules s.data = [] → ExtractGranules s = 0) := by
  constructor
  · rintro ⟨hne, hall⟩
    match hms : findAllGranules s.data with
    | [] => exact absurd hms hne
    | m :: rest =>
      have hm := hall m (by rw [hms]; exact List.mem_cons_self m rest)
      have hrest : ∀ x ∈ rest, 0 < x.1 ∧ x.1 < 2 ^ 63 :=
        fun x hx => hall x (by rw [hms]; exact List.mem_cons_of_mem m hx)
      have hval : ExtractGranules s = (m :: rest).foldl granStep 0 := by
        unfold ExtractGranules
        rw [hms]
        rfl
      have hfirst : (m :: rest).foldl granStep 0 = rest.foldl granStep m.1 := by
        simp only [List.foldl_cons]
        congr 1
        unfold granStep
        rw [if_pos hm.2]
        simp
      obtain ⟨ihmem, ihle, ihall⟩ := granFold_min rest m.1 hm.1 hrest
      rw [hval, hfirst]
      constructor
      · rcases ihmem with h | h
        · rw [h]
          exact List.mem_cons_self _ _
        · exact List.mem_cons_of_mem _ h
      · intro x hx
        rcases List.mem_cons.mp hx with rfl | hx
        · exact ihle
        · exact ihall x hx
  · intro h
    unfold ExtractGranules
    rw [h]
    rfl

/-- Witness for the amended C5: on the spec example the result is 40 and is
a member of the list of matched first components. -/
theorem extractGranules_min_of_positive_matches_witness :
    ExtractGranules "Granules: 100/500 Granules: 40/500" = 40 ∧
    ExtractGranules "Granules: 100/500 Granules: 40/500" ∈ (findAllGranules ("Granules: 100/500 Granules: 40/500").data).map Prod.fst := by
  have h := extractGranules_min_of_positive_matches "Granules: 100/500 Granules: 40/500"
  exact ⟨by decide, (h.1 ⟨by decide, by decide⟩).1⟩

/-- Counterexample to C5 as stated: on an input whose matches have first
components 0 and 100 the minimum is 0, but ExtractGranules returns 100 —
the accumulator of the source treats 0 as the not-yet-set marker, so a
scanned 0 is overwritten by the next component. -/
theorem extractGranules_not_minimum_counterexample :
    (findAllGranules ("Granules: 0/500 Granules: 100/500").data).map Prod.fst = [0, 100] ∧
    ExtractGranules "Granules: 0/500 Granules: 100/500" = 100 ∧
    ExtractGranules "Granules: 0/500 Granules: 100/500" ≠ 0 := by
  decide

/-! ## Percentile characterisation -/

/-- The percentile of the ascending insertion sort of a non-empty list
equals the entry of any sorted permutation of the list at index n times p
over 100 (integer division) clamped to n minus 1. -/
theorem percentile_sorted_getD (lat s : List ℚ) (p : Nat)
    (hperm : s.Perm lat) (hsort : s.Sorted (· ≤ ·)) (hne : lat ≠ []) :
    percentile (lat.insertionSort (· ≤ ·)) lat.length p
      = s.getD (min (lat.length * p / 100) (lat.length - 1)) 0 := by
  have hs : lat.insertionSort (· ≤ ·) = s :=
    List.eq_of_perm_of_sorted
      ((List.perm_insertionSort _ lat).trans hperm.symm)
      (List.sorted_insertionSort _ lat) hsort
  have hn : lat.length ≠ 0 := fun h => hne (List.length_eq_zero.mp h)
  rw [hs]
  unfold percentile
  rw [if_neg hn]
  show s.getD
      (if lat.length * p / 100 ≥ lat.length then lat.length - 1
       else lat.length * p / 100) 0
    = s.getD (min (lat.length * p / 100) (lat.length - 1)) 0
  congr 1
  split <;> omega

/-- C6: the stress latency percentiles are the entries of the ascending
sort of the successful-call latencies at index n times p over 100 (integer
division) clamped to n minus 1, for p in 50, 95 and 99 (stated against any
sorted permutation s of the accumulated latencies, which the sort of the
source computes); with zero successful calls all three percentile fields
are 0. -/
theorem stress_percentiles_sorted_index (records : List StressRecord)
    (durationSec : ℚ) (s : List ℚ)
    (hperm : s.Perm (stressAccum records).latencies)
    (hsort : s.Sorted (· ≤ ·)) :
    ((stressAccum records).latencies ≠ [] →
      (stressAggregate records durationSec).LatencyP50Ms
          = s.getD (min ((stressAccum records).latencies.length * 50 / 100)
              ((stressAccum records).latencies.length - 1)) 0 ∧
      (stressAggregate records durationSec).LatencyP95Ms
          = s.getD (min ((stressAccum records).latencies.length * 95 / 100)
              ((stressAccum records).latencies.length - 1)) 0 ∧
      (stressAggregate records durationSec).LatencyP99Ms
          = s.getD (min ((stressAccum records).latencies.length * 99 / 100)
              ((stressAccum records).latencies.length - 1)) 0) ∧
    ((stressAccum records).latencies = [] →
      (stressAggregate records durationSec).LatencyP50Ms = 0 ∧
      (stressAggregate records durationSec).LatencyP95Ms = 0 ∧
      (stressAggregate records durationSec).LatencyP99Ms = 0) := by
  constructor
  · intro hne
    have hpos : 0 < (stressAccum records).latencies.length :=
      List.length_pos.mpr hne
    have hagg : ∀ q : Nat,
        percentile ((stressAccum records).latencies.insertionSort (· ≤ ·))
            (stressAccum records).latencies.length q
          = s.getD (min ((stressAccum records).latencies.length * q / 100)
              ((stressAccum records).latencies.length - 1)) 0 :=
      fun q => percentile_sorted_getD _ s q hperm hsort hne
    refine ⟨?_, ?_, ?_⟩ <;>
      · simp only [stressAggregate, if_pos hpos]
        exact hagg _
  · intro hemp
    have hzero : ¬ (0 < (stressAccum records).latencies.length) := by
      rw [hemp]
      simp
    by_cases hd : 0 < durationSec <;>
      refine ⟨?_, ?_, ?_⟩ <;>
        simp [stressAggregate, if_neg hzero, hd]

/-- Witness for C6 on the spec example: five successful calls with
latencies 10 to 50 give p50 equal to 30 and p99 equal to 50, and the p95
index clamps within bounds. -/
theorem stress_percentiles_sorted_index_witness :
    (stressAggregate [{ durationMs := 10, err := none }, { durationMs := 20, err := none }, { durationMs := 30, err := none }, { durationMs := 40, err := none }, { durationMs := 50, err := none }] 1).LatencyP50Ms = 30 ∧
    (stressAggregate [{ durationMs := 10, err := none }, { durationMs := 20, err := none }, { durationMs := 30, err := none }, { durationMs := 40, err := none }, { durationMs := 50, err := none }] 1).LatencyP95Ms = 50 ∧
    (stressAggregate [{ durationMs := 10, err := none }, { durationMs := 20, err := none }, { durationMs := 30, err := none }, { durationMs := 40, err := none }, { durationMs := 50, err := none }] 1).LatencyP99Ms = 50 := by
  have h := stress_percentiles_sorted_index [{ durationMs := 10, err := none }, { durationMs := 20, err := none }, { durationMs := 30, err := none }, { durationMs := 40, err := none }, { durationMs := 50, err := none }] 1
    [10, 20, 30, 40, 50] (by decide) (by decide)
  have h2 := h.1 (by decide)
  exact ⟨h2.1, h2.2.1, h2.2.2⟩

/-! ## Outcome classification -/

/-- The Boolean cancellation test of the source agrees with the spec-side
wrapping predicate. -/
theorem isContextCanceled_iff (e : GoError) :
    isContextCanceled e = true ↔ WrapsCancellation e := by
  induction e with
  | canceled =>
    constructor
    · intro _
      exact WrapsCancellation.canceled
    · intro _
      decide
  | deadlineExceeded =>
    constructor
    · intro _
      exact WrapsCancellation.deadline
    · intro _
      decide
  | leaf msg =>
    constructor
    · intro h
      simp [isContextCanceled, errorsIs, isSameErr] at h
    · intro h
      cases h
  | wrapped pre inner ih =>
    have hw : isContextCanceled (.wrapped pre inner) = isContextCanceled inner := by
      simp [isContextCanceled, errorsIs, isSameErr]
    rw [hw, ih]
    constructor
    · exact fun h => WrapsCancellation.wrap pre h
    · intro h
      cases h with
      | wrap _ hi => exact hi

theorem stressStep_fields (acc : StressAccum) (r : StressRecord) :
    (stressStep acc r).total = acc.total + 1 ∧
    (stressStep acc r).success
      = acc.success + (if classifyOutcome r.err = Outcome.success then 1 else 0) ∧
    (stressStep acc r).failed
      = acc.failed + (if classifyOutcome r.err = Outcome.failed then 1 else 0) ∧
    (stressStep acc r).cancelled
      = acc.cancelled + (if classifyOutcome r.err = Outcome.cancelled then 1 else 0) := by
  rcases hr : r.err with _ | e
  · simp [stressStep, classifyOutcome, hr]
  · by_cases hc : isContextCanceled e <;>
      simp [stressStep, classifyOutcome, hr, hc]

theorem length_filter_cons (p : StressRecord → Bool) (r : StressRecord)
    (rest : List StressRecord) :
    (List.filter p (r :: rest)).length
      = (if p r then 1 else 0) + (List.filter p rest).length := by
  by_cases hp : p r <;> simp [List.filter_cons, hp] <;> omega

theorem stressAccum_foldl_counts (records : List StressRecord) (acc : StressAccum) :
    (records.foldl stressStep acc).total = acc.total + records.length ∧
    (records.foldl stressStep acc).success
      = acc.success
        + (records.filter (fun r => classifyOutcome r.err = Outcome.success)).length ∧
    (records.foldl stressStep acc).failed
      = acc.failed
        + (records.filter (fun r => classifyOutcome r.err = Outcome.failed)).length ∧
    (records.foldl stressStep acc).cancelled
      = acc.cancelled
        + (records.filter (fun r => classifyOutcome r.err = Outcome.cancelled)).length := by
  induction records generalizing acc with
  | nil => simp
  | cons r rest ih =>
    obtain ⟨ht, hs, hf, hc⟩ := stressStep_fields acc r
    obtain ⟨iht, ihs, ihf, ihc⟩ := ih (stressStep acc r)
    simp only [List.foldl_cons]
    refine ⟨?_, ?_, ?_, ?_⟩
    · rw [iht, ht, List.length_cons]
      omega
    · rw [ihs, hs, length_filter_cons]
      by_cases ho : classifyOutcome r.err = Outcome.success <;> simp [ho] <;> omega
    · rw [ihf, hf, length_filter_cons]
      by_cases ho : classifyOutcome r.err = Outcome.failed <;> simp [ho] <;> omega
    · rw [ihc, hc, length_filter_cons]
      by_cases ho : classifyOutcome r.err = Outcome.cancelled <;> simp [ho] <;> omega

theorem outcome_filter_partition (records : List StressRecord) :
    (records.filter (fun r => classifyOutcome r.err = Outcome.success)).length
      + (records.filter (fun r => classifyOutcome r.err = Outcome.failed)).length
      + (records.filter (fun r => classifyOutcome r.err = Outcome.cancelled)).length
      = records.length := by
  induction records with
  | nil => simp
  | cons r rest ih =>
    rw [length_filter_cons, length_filter_cons, length_filter_cons, List.length_cons]
    rcases ho : classifyOutcome r.err <;> simp [ho] <;> omega

/-- C7: the classification of a stress call is a pure function of its
error: nil is a success; an error is classified cancelled exactly when it
is or wraps context cancellation or deadline expiry, and failed otherwise;
and over any record stream the three outcome counters each count the calls
of their class, so Total counts every call in exactly one of Success,
Failed and Cancelled. -/
theorem stress_outcome_classification :
    (∀ e : GoError,
      (classifyOutcome (some e) = Outcome.cancelled ↔ WrapsCancellation e)) ∧
    (∀ e : GoError,
      (classifyOutcome (some e) = Outcome.failed ↔ ¬ WrapsCancellation e)) ∧
    classifyOutcome none = Outcome.success ∧
    (∀ records : List StressRecord,
      (stressAccum records).total = records.length ∧
      (stressAccum records).success
        = (records.filter (fun r => classifyOutcome r.err = Outcome.success)).length ∧
      (stressAccum records).failed
        = (records.filter (fun r => classifyOutcome r.err = Outcome.failed)).length ∧
      (stressAccum records).cancelled
        = (records.filter (fun r => classifyOutcome r.err = Outcome.cancelled)).length ∧
      (stressAccum records).success + (stressAccum records).failed
          + (stressAccum records).cancelled
        = (stressAccum records).total) := by
  have hcls : ∀ e : GoError,
      (classifyOutcome (some e) = Outcome.cancelled ↔ WrapsCancellation e) := by
    intro e
    by_cases h : isContextCanceled e
    · simp [classifyOutcome, h]
      exact (isContextCanceled_iff e).mp h
    · simp [classifyOutcome, h]
      rw [← isContextCanceled_iff]
      simp [h]
  refine ⟨hcls, ?_, rfl, ?_⟩
  · intro e
    by_cases h : isContextCanceled e
    · simp [classifyOutcome, h]
      exact (isContextCanceled_iff e).mp h
    · simp [classifyOutcome, h]
      rw [← isContextCanceled_iff]
      simp [h]
  · intro records
    obtain ⟨ht, hs, hf, hc⟩ := stressAccum_foldl_counts records stressAccumZero
    have hp := outcome_filter_partition records
    refine ⟨?_, ?_, ?_, ?_, ?_⟩
    · unfold stressAccum
      rw [ht]
      simp [stressAccumZero]
    · unfold stressAccum
      rw [hs]
      simp [stressAccumZero]
    · unfold stressAccum
      rw [hf]
      simp [stressAccumZero]
    · unfold stressAccum
      rw [hc]
      simp [stressAccumZero]
    · unfold stressAccum
      rw [ht, hs, hf, hc]
      simp only [stressAccumZero]
      omega

/-- Witness for C7: a wrapped deadline error classifies as cancelled, a
plain error as failed, and on a concrete three-record stream the counters
partition the total. -/
theorem stress_outcome_classification_witness :
    classifyOutcome (some (GoError.wrapped "query: " GoError.deadlineExceeded))
      = Outcome.cancelled ∧
    classifyOutcome (some (GoError.leaf "boom")) = Outcome.failed ∧
    (stressAccum [{ durationMs := 1, err := none },
      { durationMs := 2, err := some (GoError.leaf "boom") },
      { durationMs := 3, err := some GoError.canceled }]).success
        + (stressAccum [{ durationMs := 1, err := none },
            { durationMs := 2, err := some (GoError.leaf "boom") },
            { durationMs := 3, err := some GoError.canceled }]).failed
        + (stressAccum [{ durationMs := 1, err := none },
            { durationMs := 2, err := some (GoError.leaf "boom") },
            { durationMs := 3, err := some GoError.canceled }]).cancelled
      = 3 := by
  have h := stress_outcome_classification
  refine ⟨(h.1 _).mpr (WrapsCancellation.wrap "query: " WrapsCancellation.deadline),
    (h.2.1 _).mpr ?_, ?_⟩
  · intro hw
    cases hw
  · have h3 := h.2.2.2 [{ durationMs := 1, err := none },
      { durationMs := 2, err := some (GoError.leaf "boom") },
      { durationMs := 3, err := some GoError.canceled }]
    rw [h3.2.2.2.2, h3.1]
    rfl

/-! ## The shared stress offset counter -/

/-- Closed form of the serialised counter draws: starting from counter
state c, the k-th drawn value is c plus k plus 1, modulo 2 ^ 64. -/
theorem offsetDraws_formula (c n : Nat) :
    offsetDraws c n = (List.range n).map (fun k => (c + k + 1) % 2 ^ 64) := by
  induction n generalizing c with
  | zero => rfl
  | succ n ih =>
    simp only [offsetDraws, atomicAddUint64, ih]
    rw [List.range_succ_eq_map, List.map_cons, List.map_map]
    congr 1
    apply List.map_congr_left
    intro k _
    show ((c + 1) % 2 ^ 64 + k + 1) % 2 ^ 64 = (c + Nat.succ k + 1) % 2 ^ 64
    rw [Nat.add_assoc ((c + 1) % 2 ^ 64) k 1, Nat.mod_add_mod]
    congr 1
    omega

/-- C9: across one stress run of n calls with n below 2 ^ 64 (the width of
the shared uint64 counter), the serialised atomic draws hand out exactly
the values 1 to n in order — each value distinct, strictly increasing, none
skipped, whatever the worker count (atomicity makes every concurrent
execution one such serialisation) — and the k-th generated query text
substitutes exactly the k-th drawn value for the cache-busting token. -/
theorem stress_offsets_unique_and_substituted (n : Nat) (base : String)
    (hn : n < 2 ^ 64) :
    offsetDraws 0 n = (List.range n).map (fun k => k + 1) ∧
    (offsetDraws 0 n).Nodup ∧
    List.Pairwise (· < ·) (offsetDraws 0 n) ∧
    ∀ k, k < n →
      stressIterationQuery (prepareBaseQuery base) ((offsetDraws 0 n).getD k 0)
        = replaceAll (prepareBaseQuery base) timeOffsetPlaceholder (toString (k + 1)) := by
  have heq : offsetDraws 0 n = (List.range n).map (fun k => k + 1) := by
    rw [offsetDraws_formula]
    apply List.map_congr_left
    intro k hk
    have hk' : k < n := List.mem_range.mp hk
    have : k + 1 < 2 ^ 64 := by omega
    rw [Nat.zero_add]
    exact Nat.mod_eq_of_lt this
  have hpw : List.Pairwise (· < ·) (offsetDraws 0 n) := by
    rw [heq]
    exact (List.pairwise_lt_range n).map _ (fun a b hab => by omega)
  have hget : ∀ k, k < n → (offsetDraws 0 n).getD k 0 = k + 1 := by
    intro k hk
    rw [heq, List.getD_eq_getElem?_getD, List.getElem?_map, List.getElem?_range hk]
    rfl
  refine ⟨heq, hpw.imp (fun h => Nat.ne_of_lt h), hpw, ?_⟩
  intro k hk
  rw [hget k hk]
  rfl

/-- Witness for C9 at three draws: the counter hands out 1, 2, 3 and the
first generated query text carries the value 1. -/
theorem stress_offsets_unique_and_substituted_witness :
    offsetDraws 0 3 = [1, 2, 3] ∧
    (offsetDraws 0 3).Nodup ∧
    stressIterationQuery (prepareBaseQuery "SELECT count() FROM t WHERE ts > $time_offset_ms$") 1
      = "SELECT count() FROM t WHERE ts > 1" := by
  have h := stress_offsets_unique_and_substituted 3 "SELECT count() FROM t WHERE ts > $time_offset_ms$" (by decide)
  exact ⟨h.1, h.2.1, h.2.2.2 0 (by decide)⟩

end ClickTester
